import Mathlib

/-!
# Verification of the `sdkdocgen` AST-to-documentation transform

A shallow embedding of `src/main.rs` (an AST-to-Markdown documentation
generator for Python modules).  The Python AST shapes consumed by the
program (the subset of `rustpython_parser::ast` that the code inspects)
are modelled as Lean inductive types; each Rust function of the core
transform is translated into a Lean function of the same name.

Rust's `usize` subtraction and slice indexing panic when out of range;
the corresponding Lean embeddings return `Option` and yield `none`
exactly where the Rust code would panic.  `format!("{:?}", node)` (the
derived `Debug` dump, used by the code for default values, augmented
assignment operators and unsupported statements) is modelled by the
structural dump functions `fmtDebug`, `fmtDebugOp`, `fmtDebugConstant`
and `fmtDebugStmt`: the claims under verification depend only on the
dump being a deterministic, total function of the node, not on its
exact text, so the dump text is a structural abbreviation of the
derived-`Debug` output.
-/

namespace PyDoc

/-- Model of `rustpython_parser::ast::Constant`: the constant kinds are
collapsed to the ones the program distinguishes (`Str` is matched
explicitly by the code; every other kind is only ever `Debug`-dumped,
so they are kept abstract via their dump text). -/
inductive Constant where
  | str (s : String)
  | int (n : Int)
  | bool (b : Bool)
  | noneConst
  | other (dump : String)

/-- Model of `rustpython_parser::ast::Operator` (binary/augmented
assignment operators). -/
inductive Operator where
  | add | sub | mult | matMult | div | mod | pow
  | lshift | rshift | bitOr | bitXor | bitAnd | floorDiv

/-- Model of `rustpython_parser::ast::Expr`, restricted to the
constructors the program matches on; every expression kind the code
does not handle explicitly is represented by `other` carrying its
`Debug` dump text. -/
inductive Expr where
  | name (id : String)
  | attribute (value : Expr) (attr : String)
  | subscript (value : Expr) (slice : Expr)
  | list (elts : List Expr)
  | tuple (elts : List Expr)
  | call (func : Expr) (args : List Expr)
  | binOp (left : Expr) (op : Operator) (right : Expr)
  | constant (value : Constant)
  | other (dump : String)

/-- `Debug` dump of an operator: the derived `Debug` of a fieldless
enum prints the variant name. -/
def fmtDebugOp : Operator → String
  | .add => "Add"
  | .sub => "Sub"
  | .mult => "Mult"
  | .matMult => "MatMult"
  | .div => "Div"
  | .mod => "Mod"
  | .pow => "Pow"
  | .lshift => "LShift"
  | .rshift => "RShift"
  | .bitOr => "BitOr"
  | .bitXor => "BitXor"
  | .bitAnd => "BitAnd"
  | .floorDiv => "FloorDiv"

/-- Structural model of `format!("{:?}", c)` on a constant. -/
def fmtDebugConstant : Constant → String
  | .str s => "Str(" ++ s ++ ")"
  | .int n => "Int(" ++ toString n ++ ")"
  | .bool b => "Bool(" ++ toString b ++ ")"
  | .noneConst => "None"
  | .other d => d

mutual

/-- Structural model of `format!("{:?}", e)` on an expression (the
derived `Debug` dump).  For an `other` node the dump text is the text
the node carries. -/
def fmtDebug : Expr → String
  | .name id => "Name(" ++ id ++ ")"
  | .attribute value attr => "Attribute(" ++ fmtDebug value ++ ", " ++ attr ++ ")"
  | .subscript value slice => "Subscript(" ++ fmtDebug value ++ ", " ++ fmtDebug slice ++ ")"
  | .list elts => "List([" ++ String.intercalate ", " (fmtDebugList elts) ++ "])"
  | .tuple elts => "Tuple([" ++ String.intercalate ", " (fmtDebugList elts) ++ "])"
  | .call func args => "Call(" ++ fmtDebug func ++ ", [" ++ String.intercalate ", " (fmtDebugList args) ++ "])"
  | .binOp left op right =>
      "BinOp(" ++ fmtDebug left ++ ", " ++ fmtDebugOp op ++ ", " ++ fmtDebug right ++ ")"
  | .constant c => "Constant(" ++ fmtDebugConstant c ++ ")"
  | .other d => d

/-- `fmtDebug` mapped over a list of expressions. -/
def fmtDebugList : List Expr → List String
  | [] => []
  | e :: es => fmtDebug e :: fmtDebugList es

end

mutual

/-- Embedding of `extract_type` (src/main.rs lines 28–85): the
recursive type-expression stringifier.  The source's nested match on
the subscript slice (tuple slices joined with `", "`, any other slice
rendered directly) is hoisted into the two `subscript` arms. -/
def extract_type : Expr → String
  | .name id => id
  | .attribute value attr => extract_type value ++ "." ++ attr
  | .subscript value (.tuple elts) =>
      extract_type value ++ "[" ++ String.intercalate ", " (extract_type_list elts) ++ "]"
  | .subscript value slice =>
      extract_type value ++ "[" ++ extract_type slice ++ "]"
  | .list elts => "[" ++ String.intercalate ", " (extract_type_list elts) ++ "]"
  | .tuple elts => "(" ++ String.intercalate ", " (extract_type_list elts) ++ ")"
  | .call func args =>
      extract_type func ++ "[" ++ String.intercalate ", " (extract_type_list args) ++ "]"
  | .binOp left _op right => extract_type left ++ " | " ++ extract_type right
  | e => fmtDebug e

/-- `extract_type` mapped over a list of expressions (the source uses
`iter().map(extract_type).collect()`). -/
def extract_type_list : List Expr → List String
  | [] => []
  | e :: es => extract_type e :: extract_type_list es

end

mutual

/-- Invariant guaranteed by the external parser: every identifier in
the tree is a nonempty Python identifier, and every `Debug` dump text
carried by an unmodelled node is nonempty (the derived `Debug`
formatter always prints at least the variant name). -/
def parser_shaped : Expr → Bool
  | .name id => id != ""
  | .attribute value attr => (attr != "") && parser_shaped value
  | .subscript value slice => parser_shaped value && parser_shaped slice
  | .list elts => parser_shaped_list elts
  | .tuple elts => parser_shaped_list elts
  | .call func args => parser_shaped func && parser_shaped_list args
  | .binOp left _op right => parser_shaped left && parser_shaped right
  | .constant _ => true
  | .other d => d != ""

/-- `parser_shaped` over a list of expressions. -/
def parser_shaped_list : List Expr → Bool
  | [] => true
  | e :: es => parser_shaped e && parser_shaped_list es

end

/-- Model of `rustpython_parser::ast::ArgWithDefault`: one formal
parameter.  `arg` is the parameter name, `annot` its optional
annotation (field `annotation` in the source AST), `default` its
optional default-value expression. -/
structure Arg where
  arg : String
  annot : Option Expr
  default : Option Expr

/-- Model of `rustpython_parser::ast::Arguments` (the fields the
program reads: positional-only, positional-or-keyword and keyword-only
parameter lists). -/
structure Arguments where
  posonlyargs : List Arg
  args : List Arg
  kwonlyargs : List Arg

/-- Embedding of `Arguments::defaults()` from `rustpython_ast`: the
defaults of the positional-only parameters followed by the defaults of
the positional-or-keyword parameters, in declaration order. -/
def Arguments.defaults (a : Arguments) : List Expr :=
  (a.posonlyargs ++ a.args).filterMap (fun x => x.default)

/-- Rust `usize` subtraction, which panics on underflow
(`args_len - defaults_len` at src/main.rs line 104 computed with
debug-build overflow checks). -/
def checked_sub (a b : Nat) : Option Nat :=
  if b ≤ a then some (a - b) else none

/-- The row format string
`"| `{}` | `{}` | {} | {} |\n"` of `format_args_table`. -/
def argRowFmt (name ty desc dflt : String) : String :=
  "| `" ++ name ++ "` | `" ++ ty ++ "` | " ++ desc ++ " | " ++ dflt ++ " |\n"

/-- The type cell of a parameter row:
`annotation.as_ref().map_or("Any".to_string(), extract_type)`. -/
def argTypeCell (a : Arg) : String :=
  match a.annot with
  | some ann => extract_type ann
  | none => "Any"

/-- The default cell of one positional-parameter row (the body of the
positional loop of `format_args_table`, src/main.rs lines 104–109):
`if i >= args_len - defaults_len` the row shows
`format!("{:?}", defaults[i - (args_len - defaults_len)])`, otherwise
the `_required_` marker.  The subtraction and the indexing panic
(= `none`) out of range. -/
def posDefaultCell (args_len defaults_len : Nat) (defaults : List Expr) (i : Nat) :
    Option String :=
  match checked_sub args_len defaults_len with
  | none => none
  | some gap =>
      if gap ≤ i then (defaults[i - gap]?).map fmtDebug
      else some "_required_"

/-- One full positional-parameter row of `format_args_table`. -/
def posRow (args_len defaults_len : Nat) (defaults : List Expr) (i : Nat) (a : Arg) :
    Option String :=
  (posDefaultCell args_len defaults_len defaults i).map
    (fun dflt => argRowFmt a.arg (argTypeCell a) "" dflt)

/-- One keyword-only-parameter row of `format_args_table`
(src/main.rs lines 118–132): the default cell is always the
`_required_` marker; the parameter's actual `default` field is never
read. -/
def kwRow (a : Arg) : String :=
  argRowFmt a.arg (argTypeCell a) "" "_required_"

/-- The fixed table header pushed first by `format_args_table`. -/
def argTableHeader : String :=
  "\n**Parameters:**\n\n| Name | Type | Description | Default |\n| --- | --- | --- | --- |\n"

/-- Embedding of `format_args_table` (src/main.rs lines 87–135): the
header, one row per positional-or-keyword parameter (in declaration
order, with the index-dependent default cell), then one row per
keyword-only parameter.  `none` models a panic inside the positional
loop. -/
def format_args_table (args : Arguments) : Option String :=
  match args.args.enum.mapM
      (fun p => posRow args.args.length args.defaults.length args.defaults p.1 p.2) with
  | none => none
  | some posRows =>
      some (argTableHeader ++ String.join posRows ++ String.join (args.kwonlyargs.map kwRow))

/-- Closed form of the default cell of positional row `i` under the
precondition that defaults do not outnumber positional parameters:
the trailing `defaults.length` rows show their default's `Debug` dump
(defaults taken in order), all earlier rows the `_required_` marker. -/
def posDefaultCellStr (args_len : Nat) (defaults : List Expr) (i : Nat) : String :=
  if i < args_len - defaults.length then "_required_"
  else fmtDebug (defaults.getD (i - (args_len - defaults.length)) (Expr.tuple []))

/-- Closed form of positional row `i`. -/
def posRowStr (args_len : Nat) (defaults : List Expr) (i : Nat) (a : Arg) : String :=
  argRowFmt a.arg (argTypeCell a) "" (posDefaultCellStr args_len defaults i)

/-- Closed form of the positional-rows block of the parameter table. -/
def posRowsStr (args : Arguments) : String :=
  String.join (args.args.enum.map
    (fun p => posRowStr args.args.length args.defaults p.1 p.2))

/-- Closed form of the keyword-only-rows block of the parameter table. -/
def kwRowsStr (args : Arguments) : String :=
  String.join (args.kwonlyargs.map kwRow)

/-- Model of `rustpython_parser::ast::Stmt`, restricted to the
constructors the program matches on; `other` stands for every
unsupported statement kind, carrying its `Debug` dump text.  The
`orelse` suites of `for` and `while` are part of the AST but are never
read by the program. -/
inductive Stmt where
  | expr (value : Expr)
  | pass
  | ret (value : Option Expr)
  | ifStmt (test : Expr) (body : List Stmt) (orelse : List Stmt)
  | assign (targets : List Expr) (value : Expr)
  | augAssign (target : Expr) (op : Operator) (value : Expr)
  | forStmt (target : Expr) (iter : Expr) (body : List Stmt) (orelse : List Stmt)
  | whileStmt (test : Expr) (body : List Stmt) (orelse : List Stmt)
  | raise (exc : Option Expr)
  | other (dump : String)

mutual

/-- Structural model of `format!("{:?}", stmt)` on a statement. -/
def fmtDebugStmt : Stmt → String
  | .expr v => "Expr(" ++ fmtDebug v ++ ")"
  | .pass => "Pass"
  | .ret none => "Return(None)"
  | .ret (some v) => "Return(" ++ fmtDebug v ++ ")"
  | .ifStmt t b o =>
      "If(" ++ fmtDebug t ++ ", " ++ fmtDebugStmtList b ++ ", " ++ fmtDebugStmtList o ++ ")"
  | .assign ts v =>
      "Assign([" ++ String.intercalate ", " (fmtDebugList ts) ++ "], " ++ fmtDebug v ++ ")"
  | .augAssign t op v =>
      "AugAssign(" ++ fmtDebug t ++ ", " ++ fmtDebugOp op ++ ", " ++ fmtDebug v ++ ")"
  | .forStmt tgt iter b o =>
      "For(" ++ fmtDebug tgt ++ ", " ++ fmtDebug iter ++ ", " ++ fmtDebugStmtList b
        ++ ", " ++ fmtDebugStmtList o ++ ")"
  | .whileStmt t b o =>
      "While(" ++ fmtDebug t ++ ", " ++ fmtDebugStmtList b ++ ", " ++ fmtDebugStmtList o ++ ")"
  | .raise none => "Raise(None)"
  | .raise (some e) => "Raise(" ++ fmtDebug e ++ ")"
  | .other d => d

/-- `fmtDebugStmt` over a statement list, rendered as a bracketed
sequence. -/
def fmtDebugStmtList : List Stmt → String
  | [] => "[]"
  | s :: rest => "[" ++ fmtDebugStmt s ++ "; " ++ fmtDebugStmtList rest ++ "]"

end

mutual

/-- Embedding of `reconstruct_stmt` (src/main.rs lines 332–381): the
nested (body-only) statement renderer.  Note that `for` and `while`
are not among its supported arms: they fall to the unsupported-
statement placeholder, as in the source's catch-all. -/
def reconstruct_stmt : Stmt → String
  | .expr v => extract_type v
  | .pass => "pass"
  | .ret none => "return"
  | .ret (some v) => "return " ++ extract_type v
  | .ifStmt test body orelse =>
      "if " ++ extract_type test ++ ":\n"
        ++ nested_body_lines body
        ++ (if orelse.isEmpty then "" else "else:\n" ++ nested_body_lines orelse)
  | .assign targets v =>
      String.intercalate ", " (targets.map extract_type) ++ " = " ++ extract_type v
  | .augAssign t op v =>
      extract_type t ++ " " ++ fmtDebugOp op ++ "= " ++ extract_type v
  | .raise none => "raise"
  | .raise (some e) => "raise " ++ extract_type e
  | s => "# Unhandled statement: " ++ fmtDebugStmt s

/-- The nested-body loop of `reconstruct_stmt`: each statement of a
nested suite is rendered with one fixed four-space indentation step
(`format!("    {}\n", reconstruct_stmt(body_stmt))`), independent of
nesting depth. -/
def nested_body_lines : List Stmt → String
  | [] => ""
  | s :: rest => "    " ++ reconstruct_stmt s ++ "\n" ++ nested_body_lines rest

end

/-- The docstring block emitted by `reconstruct_function_def`
(src/main.rs lines 234–246): if the first body statement is a bare
string constant, a triple-quoted block holding its trimmed text. -/
def docstringText (body : List Stmt) : String :=
  match body.head? with
  | some (.expr (.constant (.str docstring))) =>
      "    \"\"\"\n    " ++ docstring.trim ++ "\n    \"\"\"\n"
  | _ => ""

/-- One iteration of the body loop of `reconstruct_function_def`
(src/main.rs lines 249–327): a top-level body statement rendered at
one four-space step, with nested `if`/`for`/`while` suites rendered
through `reconstruct_stmt` behind a fixed eight-space prefix.  A bare
string-constant expression statement is skipped (`continue`), so it
contributes the empty string. -/
def topStmtText : Stmt → String
  | .expr v =>
      match v with
      | .constant (.str _) => ""
      | _ => "    " ++ extract_type v ++ "\n"
  | .pass => "    pass\n"
  | .ret none => "    return\n"
  | .ret (some v) => "    return " ++ extract_type v ++ "\n"
  | .ifStmt test body orelse =>
      "    if " ++ extract_type test ++ ":\n"
        ++ String.join (body.map (fun s => "        " ++ reconstruct_stmt s ++ "\n"))
        ++ (if orelse.isEmpty then ""
            else "    else:\n"
              ++ String.join (orelse.map (fun s => "        " ++ reconstruct_stmt s ++ "\n")))
  | .assign targets v =>
      "    " ++ String.intercalate ", " (targets.map extract_type)
        ++ " = " ++ extract_type v ++ "\n"
  | .augAssign t op v =>
      "    " ++ extract_type t ++ " " ++ fmtDebugOp op ++ "= " ++ extract_type v ++ "\n"
  | .forStmt tgt iter body _orelse =>
      "    for " ++ extract_type tgt ++ " in " ++ extract_type iter ++ ":\n"
        ++ String.join (body.map (fun s => "        " ++ reconstruct_stmt s ++ "\n"))
  | .whileStmt test body _orelse =>
      "    while " ++ extract_type test ++ ":\n"
        ++ String.join (body.map (fun s => "        " ++ reconstruct_stmt s ++ "\n"))
  | .raise none => "    raise\n"
  | .raise (some e) => "    raise " ++ extract_type e ++ "\n"
  | .other d => "    # Unhandled statement: " ++ d ++ "\n"

/-- Model of `rustpython_parser::ast::StmtFunctionDef` (the fields the
program reads). -/
structure StmtFunctionDef where
  name : String
  args : Arguments
  body : List Stmt
  decorator_list : List Expr
  returns : Option Expr

/-- The decorator lines of `reconstruct_function_def`. -/
def decoratorsText (decs : List Expr) : String :=
  String.join (decs.map (fun d => "@" ++ extract_type d ++ "\n"))

/-- One parameter of the reconstructed signature:
name plus `": <type>"` when annotated. -/
def argSig (a : Arg) : String :=
  a.arg ++ (match a.annot with
            | some ty => ": " ++ extract_type ty
            | none => "")

/-- The return-annotation fragment of the reconstructed signature
(the source pushes it before the closing parenthesis). -/
def returnsText : Option Expr → String
  | some r => " -> " ++ extract_type r
  | none => ""

/-- Embedding of `reconstruct_function_def` (src/main.rs lines
198–330): decorators, signature line, docstring block, then the body
loop over all body statements. -/
def reconstruct_function_def (f : StmtFunctionDef) : String :=
  decoratorsText f.decorator_list
    ++ "def " ++ f.name ++ "("
    ++ String.intercalate ", " (f.args.args.map argSig)
    ++ returnsText f.returns
    ++ "):\n"
    ++ docstringText f.body
    ++ String.join (f.body.map topStmtText)

/-- Concrete input: three positional parameters, the last two with
defaults (`def f(a, b=x, c=y)`). -/
def threePosTwoDefaults : Arguments :=
  ⟨[],
   [⟨"a", none, none⟩, ⟨"b", none, some (.name "x")⟩, ⟨"c", none, some (.name "y")⟩],
   []⟩

/-- Concrete input: one positional-only parameter with a default and
no positional-or-keyword parameters (`def f(a=x, /)`), so that the
defaults outnumber the `args` list the positional loop walks. -/
def posonlyDefaultOnly : Arguments :=
  ⟨[⟨"a", none, some (.name "x")⟩], [], []⟩

/-- Concrete input: a keyword-only parameter that does have a default
(`def f(*, k=v)`). -/
def kwonlyWithDefault : Arguments :=
  ⟨[], [], [⟨"k", none, some (.name "v")⟩]⟩

/-! ## Helper lemmas -/

theorem extract_type_list_eq_map (l : List Expr) :
    extract_type_list l = l.map extract_type := by
  induction l with
  | nil => rfl
  | cons e es ih => simp [extract_type_list, ih]

theorem fmtDebugList_eq_map (l : List Expr) :
    fmtDebugList l = l.map fmtDebug := by
  induction l with
  | nil => rfl
  | cons e es ih => simp [fmtDebugList, ih]

theorem string_foldl_append (l : List String) :
    ∀ a : String, l.foldl (· ++ ·) a = a ++ l.foldl (· ++ ·) "" := by
  induction l with
  | nil => intro a; simp
  | cons x t ih =>
      intro a
      show t.foldl (· ++ ·) (a ++ x) = a ++ t.foldl (· ++ ·) ("" ++ x)
      rw [ih (a ++ x), ih ("" ++ x)]
      simp [String.append_assoc]

theorem string_join_nil : String.join [] = "" := rfl

theorem string_join_cons (s : String) (l : List String) :
    String.join (s :: l) = s ++ String.join l := by
  show (s :: l).foldl (· ++ ·) "" = s ++ l.foldl (· ++ ·) ""
  show l.foldl (· ++ ·) ("" ++ s) = s ++ l.foldl (· ++ ·) ""
  rw [string_foldl_append l ("" ++ s)]
  simp

theorem string_join_append (a b : List String) :
    String.join (a ++ b) = String.join a ++ String.join b := by
  induction a with
  | nil => simp [String.join]
  | cons x t ih =>
      rw [List.cons_append, string_join_cons, ih, string_join_cons, String.append_assoc]

/-- Strings: a concatenation with a nonempty left part is nonempty. -/
theorem append_ne_empty_left {s : String} (t : String) (hs : s ≠ "") :
    s ++ t ≠ "" := by
  intro h
  apply hs
  have hd := congrArg String.data h
  rw [String.data_append] at hd
  rcases List.append_eq_nil.mp hd with ⟨h1, _h2⟩
  cases s
  simp_all

/-- Strings: a concatenation with a nonempty right part is nonempty. -/
theorem append_ne_empty_right (s : String) {t : String} (ht : t ≠ "") :
    s ++ t ≠ "" := by
  intro h
  apply ht
  have hd := congrArg String.data h
  rw [String.data_append] at hd
  rcases List.append_eq_nil.mp hd with ⟨_h1, h2⟩
  cases t
  simp_all

/-! ## C4: subscript rendering -/

/-- C4.  A subscript annotation renders as the base followed by `[`,
the rendered slice, `]`.  A tuple slice renders as its elements each
stringified and joined with `", "` (so `Dict[(str, int)]` renders as
`Dict[str, int]`); a non-tuple slice renders directly, with no extra
comma and no surrounding parentheses. -/
theorem subscript_rendering :
    (∀ (base : Expr) (elts : List Expr),
        extract_type (.subscript base (.tuple elts))
          = extract_type base ++ "[" ++ String.intercalate ", " (elts.map extract_type) ++ "]")
    ∧ (∀ (base slice : Expr), (∀ elts, slice ≠ .tuple elts) →
        extract_type (.subscript base slice)
          = extract_type base ++ "[" ++ extract_type slice ++ "]")
    ∧ extract_type (.subscript (.name "Dict") (.tuple [.name "str", .name "int"]))
        = "Dict[str, int]" := by
  refine ⟨?_, ?_, rfl⟩
  · intro base elts
    simp [extract_type, extract_type_list_eq_map]
  · intro base slice h
    match slice with
    | .tuple elts => exact absurd rfl (h elts)
    | .name id => rfl
    | .attribute v a => rfl
    | .subscript v s => rfl
    | .list l => rfl
    | .call f a => rfl
    | .binOp l o r => rfl
    | .constant c => rfl
    | .other d => rfl

/-- Witness for `subscript_rendering`: the non-tuple-slice branch at
the concrete annotation `List[int]`. -/
theorem subscript_rendering_witness :
    (∀ elts, Expr.name "int" ≠ Expr.tuple elts)
    ∧ extract_type (.subscript (.name "List") (.name "int"))
        = extract_type (.name "List") ++ "[" ++ extract_type (.name "int") ++ "]" :=
  ⟨fun _ h => Expr.noConfusion h,
   subscript_rendering.2.1 (.name "List") (.name "int") (fun _ h => Expr.noConfusion h)⟩

/-! ## C6: binary operators render as unions -/

/-- C6.  A binary-operator annotation renders as the left operand, a
literal `" | "` separator, then the right operand, whatever the
operator is; in particular `int <op> None` renders as `"int | None"`
for every operator. -/
theorem binop_renders_union :
    (∀ (left : Expr) (op : Operator) (right : Expr),
        extract_type (.binOp left op right)
          = extract_type left ++ " | " ++ extract_type right)
    ∧ (∀ op : Operator,
        extract_type (.binOp (.name "int") op (.name "None")) = "int | None") := by
  constructor
  · intro left op right
    simp [extract_type]
  · intro op
    rfl

/-! ## C5: the stringifier is total and nonempty -/

/-- C5.  On every parser-shaped annotation expression (nonempty
identifiers and nonempty `Debug` dumps, which the external parser
guarantees), `extract_type` returns a nonempty string.  Totality,
termination and determinism hold by construction: `extract_type` is a
total Lean function. -/
theorem extract_type_total_nonempty (e : Expr) (h : parser_shaped e = true) :
    extract_type e ≠ "" := by
  revert h
  match e with
  | .name id =>
      intro h
      simpa [extract_type, parser_shaped] using h
  | .attribute value attr =>
      intro _h
      exact append_ne_empty_left attr (append_ne_empty_right _ (by decide))
  | .subscript value slice =>
      intro _h
      match slice with
      | .tuple elts => exact append_ne_empty_right _ (by decide)
      | .name id => exact append_ne_empty_right _ (by decide)
      | .attribute v a => exact append_ne_empty_right _ (by decide)
      | .subscript v s => exact append_ne_empty_right _ (by decide)
      | .list l => exact append_ne_empty_right _ (by decide)
      | .call f a => exact append_ne_empty_right _ (by decide)
      | .binOp l o r => exact append_ne_empty_right _ (by decide)
      | .constant c => exact append_ne_empty_right _ (by decide)
      | .other d => exact append_ne_empty_right _ (by decide)
  | .list elts =>
      intro _h
      exact append_ne_empty_right _ (by decide)
  | .tuple elts =>
      intro _h
      exact append_ne_empty_right _ (by decide)
  | .call func args =>
      intro _h
      exact append_ne_empty_right _ (by decide)
  | .binOp left op right =>
      intro _h
      exact append_ne_empty_left _ (append_ne_empty_right _ (by decide))
  | .constant c =>
      intro _h
      exact append_ne_empty_left _ (append_ne_empty_left _ (by decide))
  | .other d =>
      intro h
      simpa [extract_type, fmtDebug, parser_shaped] using h

/-- Witness for `extract_type_total_nonempty` at the concrete
annotation `Optional[int]`. -/
theorem extract_type_total_nonempty_witness :
    parser_shaped (.subscript (.name "Optional") (.name "int")) = true
    ∧ extract_type (.subscript (.name "Optional") (.name "int")) ≠ "" :=
  ⟨by decide,
   extract_type_total_nonempty (.subscript (.name "Optional") (.name "int")) (by decide)⟩

/-! ## Parameter-table lemmas -/

theorem mapM_option_eq_map {α β : Type} (f : α → Option β) (g : α → β) (l : List α)
    (h : ∀ x ∈ l, f x = some (g x)) : l.mapM f = some (l.map g) := by
  induction l with
  | nil => rfl
  | cons a t ih =>
      rw [List.mapM_cons, h a (by simp), ih (fun x hx => h x (by simp [hx]))]
      rfl

theorem posDefaultCell_of_le {args_len : Nat} {defaults : List Expr} {i : Nat}
    (hle : defaults.length ≤ args_len) (hi : i < args_len) :
    posDefaultCell args_len defaults.length defaults i
      = some (posDefaultCellStr args_len defaults i) := by
  simp only [posDefaultCell, checked_sub, if_pos hle]
  unfold posDefaultCellStr
  by_cases hgap : args_len - defaults.length ≤ i
  · rw [if_pos hgap, if_neg (show ¬ i < args_len - defaults.length by omega)]
    have hidx : i - (args_len - defaults.length) < defaults.length := by omega
    rw [List.getElem?_eq_getElem hidx, List.getD_eq_getElem?_getD,
        List.getElem?_eq_getElem hidx]
    rfl
  · rw [if_neg hgap, if_pos (show i < args_len - defaults.length by omega)]

/-- Under the precondition that defaults do not outnumber the
positional parameters, `format_args_table` succeeds and produces the
header, the positional rows, then the keyword-only rows. -/
theorem format_args_table_of_le (args : Arguments)
    (h : args.defaults.length ≤ args.args.length) :
    format_args_table args
      = some (argTableHeader ++ posRowsStr args ++ kwRowsStr args) := by
  unfold format_args_table
  rw [mapM_option_eq_map _
        (fun p => posRowStr args.args.length args.defaults p.1 p.2) _ ?_]
  · rfl
  · refine List.forall_mem_enum.mpr ?_
    intro i hi
    dsimp only
    unfold posRow posRowStr
    rw [posDefaultCell_of_le h hi]
    rfl

/-! ## C1: trailing defaults alignment in the parameter table -/

/-- C1.  When the positional-parameter count is at least the default
count, the parameter table renders one row per positional parameter in
declaration order; row `i` carries the `_required_` marker exactly
when `i` lies before the gap `args_len - defaults_len`, and each of
the trailing `defaults_len` rows carries the dump of its aligned
default `defaults[i - gap]`, in order; keyword-only rows follow.  In
particular a function with 3 positional parameters and 2 defaults has
exactly its last 2 rows marked non-required. -/
theorem param_table_trailing_defaults (args : Arguments)
    (h : args.defaults.length ≤ args.args.length) :
    format_args_table args
      = some (argTableHeader
          ++ String.join (args.args.enum.map (fun p =>
               argRowFmt p.2.arg (argTypeCell p.2) ""
                 (if p.1 < args.args.length - args.defaults.length then "_required_"
                  else fmtDebug (args.defaults.getD
                         (p.1 - (args.args.length - args.defaults.length))
                         (Expr.tuple [])))))
          ++ kwRowsStr args) :=
  format_args_table_of_le args h

/-- Witness for `param_table_trailing_defaults`: the concrete function
`def f(a, b=x, c=y)` with 3 positional parameters and 2 defaults. -/
theorem param_table_trailing_defaults_witness :
    threePosTwoDefaults.defaults.length ≤ threePosTwoDefaults.args.length
    ∧ format_args_table threePosTwoDefaults
        = some (argTableHeader
            ++ String.join (threePosTwoDefaults.args.enum.map (fun p =>
                 argRowFmt p.2.arg (argTypeCell p.2) ""
                   (if p.1 < threePosTwoDefaults.args.length
                            - threePosTwoDefaults.defaults.length then "_required_"
                    else fmtDebug (threePosTwoDefaults.defaults.getD
                           (p.1 - (threePosTwoDefaults.args.length
                                   - threePosTwoDefaults.defaults.length))
                           (Expr.tuple [])))))
            ++ kwRowsStr threePosTwoDefaults) :=
  ⟨by decide, param_table_trailing_defaults threePosTwoDefaults (by decide)⟩

/-- The three rows of the witness table, fully evaluated: `a` is
required and exactly the trailing two parameters `b`, `c` carry their
defaults `x`, `y` in order. -/
example :
    format_args_table threePosTwoDefaults
      = some (argTableHeader
          ++ "| `a` | `Any` |  | _required_ |\n"
          ++ "| `b` | `Any` |  | Name(x) |\n"
          ++ "| `c` | `Any` |  | Name(y) |\n") := by
  rw [format_args_table_of_le threePosTwoDefaults (by decide)]
  rfl

/-! ## C2: behaviour when defaults outnumber positional parameters -/

/-- Counterexample to C2 as stated: for `def f(a=x, /)` the defaults
list (length 1) outnumbers the positional-or-keyword parameters the
loop walks (length 0), yet the formatter does not fail: the positional
loop never executes, so the underflowing subtraction is never
evaluated and a table is produced. -/
theorem format_args_table_mismatch_no_failfast_cex :
    posonlyDefaultOnly.args.length < posonlyDefaultOnly.defaults.length
    ∧ format_args_table posonlyDefaultOnly ≠ none :=
  ⟨by decide, by decide⟩

/-- C2 (amended).  Under the precondition that the positional
parameter count is at least the default count the subtraction never
underflows and the formatter succeeds (the error branch is
unreachable); when the defaults outnumber the positional parameters
and at least one positional parameter exists, the first loop iteration
evaluates the underflowing subtraction and the formatter fails fast;
with zero positional parameters the loop body never runs, so the
mismatch is not detected (and no positional row is rendered). -/
theorem format_args_table_underflow_behavior :
    (∀ args : Arguments, args.defaults.length ≤ args.args.length →
        (format_args_table args).isSome = true)
    ∧ (∀ args : Arguments, args.args ≠ [] →
        args.args.length < args.defaults.length →
        format_args_table args = none) := by
  constructor
  · intro args h
    rw [format_args_table_of_le args h]
    rfl
  · intro args hne hlt
    rcases List.exists_cons_of_ne_nil hne with ⟨a, rest, hcons⟩
    rw [hcons] at hlt
    have hfail : posRow (a :: rest).length args.defaults.length args.defaults 0 a = none := by
      simp only [posRow, posDefaultCell, checked_sub,
        if_neg (show ¬ args.defaults.length ≤ (a :: rest).length by omega)]
      rfl
    unfold format_args_table
    rw [hcons, List.enum_cons]
    simp only [List.mapM_cons]
    rw [hfail]
    rfl

/-- Witness for `format_args_table_underflow_behavior`: the success
branch at `def f(a, b=x, c=y)` and the fail-fast branch at a function
whose single positional parameter is outnumbered by two defaults. -/
theorem format_args_table_underflow_behavior_witness :
    (threePosTwoDefaults.defaults.length ≤ threePosTwoDefaults.args.length
      ∧ (format_args_table threePosTwoDefaults).isSome = true)
    ∧ (let bad : Arguments :=
          ⟨[⟨"p", none, some (.name "u")⟩], [⟨"q", none, some (.name "v")⟩], []⟩
       bad.args ≠ [] ∧ bad.args.length < bad.defaults.length
         ∧ format_args_table bad = none) :=
  ⟨⟨by decide, format_args_table_underflow_behavior.1 threePosTwoDefaults (by decide)⟩,
   ⟨List.cons_ne_nil _ _, by decide,
    format_args_table_underflow_behavior.2
      ⟨[⟨"p", none, some (.name "u")⟩], [⟨"q", none, some (.name "v")⟩], []⟩
      (List.cons_ne_nil _ _) (by decide)⟩⟩

/-! ## C3: keyword-only rows are always `_required_` -/

/-- C3.  Every keyword-only parameter's row is rendered with the
`_required_` marker in its default cell whether or not the parameter
has a default (the row is literally independent of the `default`
field), and the keyword-only rows appear after all positional rows in
the table. -/
theorem kwonly_rows_always_required :
    (∀ (n : String) (ann dflt : Option Expr),
        kwRow ⟨n, ann, dflt⟩ = kwRow ⟨n, ann, none⟩
        ∧ kwRow ⟨n, ann, dflt⟩ = argRowFmt n (argTypeCell ⟨n, ann, dflt⟩) "" "_required_")
    ∧ (∀ args : Arguments, args.defaults.length ≤ args.args.length →
        format_args_table args
          = some (argTableHeader ++ posRowsStr args
              ++ String.join (args.kwonlyargs.map kwRow))) := by
  constructor
  · intro n ann dflt
    exact ⟨rfl, rfl⟩
  · intro args h
    exact format_args_table_of_le args h

/-- Witness for `kwonly_rows_always_required`: the concrete function
`def f(*, k=v)` whose keyword-only parameter does carry a default. -/
theorem kwonly_rows_always_required_witness :
    (kwRow ⟨"k", none, some (.name "v")⟩ = kwRow ⟨"k", none, none⟩)
    ∧ kwonlyWithDefault.defaults.length ≤ kwonlyWithDefault.args.length
    ∧ format_args_table kwonlyWithDefault
        = some (argTableHeader ++ posRowsStr kwonlyWithDefault
            ++ String.join (kwonlyWithDefault.kwonlyargs.map kwRow)) :=
  ⟨(kwonly_rows_always_required.1 "k" none (some (.name "v"))).1,
   by decide,
   kwonly_rows_always_required.2 kwonlyWithDefault (by decide)⟩

/-- The keyword-only row of the witness, fully evaluated: marked
`_required_` although the parameter has default `v`. -/
example :
    format_args_table kwonlyWithDefault
      = some (argTableHeader ++ "| `k` | `Any` |  | _required_ |\n") := by
  rw [format_args_table_of_le kwonlyWithDefault (by decide)]
  rfl

/-! ## C7: unsupported statements degrade to one placeholder line -/

/-- C7.  An unsupported statement kind anywhere in a function body is
rendered as exactly one placeholder comment line embedding the
statement's dump, and reconstruction continues: every statement before
and after it is still rendered (reconstruction is a total function and
never aborts). -/
theorem unsupported_stmt_placeholder_continues :
    (∀ d : String, topStmtText (.other d) = "    # Unhandled statement: " ++ d ++ "\n")
    ∧ (∀ d : String, reconstruct_stmt (.other d) = "# Unhandled statement: " ++ d)
    ∧ (∀ (f : StmtFunctionDef) (pre post : List Stmt) (d : String),
        reconstruct_function_def
            ⟨f.name, f.args, pre ++ .other d :: post, f.decorator_list, f.returns⟩
          = decoratorsText f.decorator_list
            ++ "def " ++ f.name ++ "("
            ++ String.intercalate ", " (f.args.args.map argSig)
            ++ returnsText f.returns
            ++ "):\n"
            ++ docstringText (pre ++ .other d :: post)
            ++ String.join (pre.map topStmtText)
            ++ ("    # Unhandled statement: " ++ d ++ "\n")
            ++ String.join (post.map topStmtText)) := by
  refine ⟨fun d => rfl, fun d => rfl, ?_⟩
  intro f pre post d
  unfold reconstruct_function_def
  rw [List.map_append, string_join_append, List.map_cons, string_join_cons]
  simp [topStmtText, String.append_assoc]

/-! ## C8: nested bodies get one fixed indentation step -/

/-- C8.  The nested renderer applies one fixed four-space indentation
step to each statement of a nested suite, with no depth parameter: a
suite nested two levels deep is not indented proportionally deeper.
Concretely, in `if a: if b: pass` the innermost `pass` line carries
the same four-space prefix as a depth-one line (and, under the
top-level renderer, a shallower prefix than its own parent line). -/
theorem nested_indent_fixed_step :
    (∀ (test : Expr) (inner : Stmt),
        reconstruct_stmt (.ifStmt test [inner] [])
          = "if " ++ extract_type test ++ ":\n" ++ ("    " ++ reconstruct_stmt inner ++ "\n"))
    ∧ (∀ t1 t2 : Expr,
        reconstruct_stmt (.ifStmt t1 [.ifStmt t2 [.pass] []] [])
          = "if " ++ extract_type t1 ++ ":\n"
            ++ ("    " ++ ("if " ++ extract_type t2 ++ ":\n" ++ ("    " ++ "pass" ++ "\n"))
                ++ "\n"))
    ∧ reconstruct_stmt (.ifStmt (.name "a") [.ifStmt (.name "b") [.pass] []] [])
        = "if a:\n    if b:\n    pass\n\n"
    ∧ topStmtText (.ifStmt (.name "a") [.ifStmt (.name "b") [.pass] []] [])
        = "    if a:\n        if b:\n    pass\n\n" := by
  refine ⟨?_, ?_, rfl, rfl⟩
  · intro test inner
    simp only [reconstruct_stmt, nested_body_lines, List.isEmpty_nil, if_true,
      String.append_empty]
  · intro t1 t2
    simp only [reconstruct_stmt, nested_body_lines, List.isEmpty_nil, if_true,
      String.append_empty]

/-! ## C9: docstring emitted once, return emitted once -/

/-- C9.  Reconstructing a function whose body is a docstring
expression followed by a single valued `return` yields exactly one
docstring block and exactly one `return <value>` line: the docstring
statement is skipped by the body loop after being rendered by the
docstring block, so it is not emitted a second time. -/
theorem docstring_then_return_reconstruction (n : String) (args : Arguments)
    (decs : List Expr) (rets : Option Expr) (doc : String) (v : Expr) :
    reconstruct_function_def
        ⟨n, args, [.expr (.constant (.str doc)), .ret (some v)], decs, rets⟩
      = decoratorsText decs ++ "def " ++ n ++ "("
        ++ String.intercalate ", " (args.args.map argSig) ++ returnsText rets ++ "):\n"
        ++ ("    \"\"\"\n    " ++ doc.trim ++ "\n    \"\"\"\n")
        ++ ("    return " ++ extract_type v ++ "\n") := by
  unfold reconstruct_function_def
  rw [List.map_cons, string_join_cons, List.map_cons, string_join_cons]
  simp [topStmtText, docstringText, string_join_nil, String.append_empty,
    String.append_assoc]

/-! ## C10: every bare string-constant statement is skipped -/

/-- C10.  The body loop of `reconstruct_function_def` skips every
expression statement whose expression is a bare string constant — not
only the leading docstring: such a statement contributes the empty
string wherever it occurs, so a string-literal statement later in the
body is silently omitted from the reconstruction. -/
theorem string_constant_stmts_skipped :
    (∀ s : String, topStmtText (.expr (.constant (.str s))) = "")
    ∧ (∀ (f : StmtFunctionDef) (pre post : List Stmt) (s : String),
        reconstruct_function_def
            ⟨f.name, f.args, pre ++ .expr (.constant (.str s)) :: post,
             f.decorator_list, f.returns⟩
          = decoratorsText f.decorator_list ++ "def " ++ f.name ++ "("
            ++ String.intercalate ", " (f.args.args.map argSig)
            ++ returnsText f.returns ++ "):\n"
            ++ docstringText (pre ++ .expr (.constant (.str s)) :: post)
            ++ String.join (pre.map topStmtText)
            ++ String.join (post.map topStmtText)) := by
  constructor
  · intro s
    rfl
  · intro f pre post s
    unfold reconstruct_function_def
    rw [List.map_append, string_join_append, List.map_cons, string_join_cons]
    simp [topStmtText, String.append_assoc]

/-- A later string-literal statement (`"note"` after `pass`) is
dropped from the reconstruction, fully evaluated. -/
example :
    reconstruct_function_def
        ⟨"g", ⟨[], [], []⟩,
         [.pass, .expr (.constant (.str "note")), .ret none], [], none⟩
      = "def g():\n    pass\n    return\n" := rfl

end PyDoc
